import Mathlib

/-!
Verification of the job/log relay and expiration subsystem of the
superlamp repository: the job identity resolver, the in-memory log
buffer with pub/sub delivery, the log ingestion endpoint, the expiration
reaper with its extension operation, and the bootstrap-script shell
escaping.  Each definition is a shallow embedding of the corresponding
TypeScript/JavaScript function; timestamps are modelled as integer
epoch milliseconds, the persistent store as a list of records, and the
in-process Map as an association list.
-/

namespace Superlamp

/-- Value of a maximal run of decimal digits, most significant first. -/
def digitsToNat (cs : List Char) : Nat :=
  cs.foldl (fun a c => a * 10 + (c.toNat - '0'.toNat)) 0

/-- Model of JavaScript parseInt(s, 10): skip leading whitespace, read an
optional sign, then the maximal prefix of decimal digits; no digits means
NaN, modelled as none.  Trailing non-digit characters are ignored, as in
JavaScript. -/
def jsParseInt (s : String) : Option Int :=
  let cs := s.data.dropWhile (fun c => c == ' ' || c == '\t' || c == '\n' || c == '\r')
  match cs with
  | '-' :: rest =>
    let ds := rest.takeWhile Char.isDigit
    if ds.isEmpty then none else some (-(digitsToNat ds : Int))
  | '+' :: rest =>
    let ds := rest.takeWhile Char.isDigit
    if ds.isEmpty then none else some ((digitsToNat ds : Int))
  | _ =>
    let ds := cs.takeWhile Char.isDigit
    if ds.isEmpty then none else some ((digitsToNat ds : Int))

/-- The persisted Droplet (instance) record, from the Prisma model used by
resolve-job.ts, the cleanup cron handler and the extend-expiration handler.
Timestamps are epoch milliseconds. -/
structure Droplet where
  dropletId : Int
  dropletName : String
  userId : String
  dropletStatus : String
  expirationTime : Option Int
  isDeleted : Bool
  deletedAt : Option Int
deriving DecidableEq

/-- The owner constraint Prisma receives in the name lookup of
resolveJobToDropletId: the spread applies the userId filter only when
options.userId is truthy, and the empty string is falsy in JavaScript. -/
def nameFilterB (userId? : Option String) (d : Droplet) : Bool :=
  match userId? with
  | some u => if u = "" then true else decide (d.userId = u)
  | none => true

/-- Shallow embedding of resolveJobToDropletId (resolve-job.ts): parse the
token with parseInt; on a numeric token look the record up by dropletId
first; if that fails (or the token is not numeric) look it up by
dropletName, constrained to the owner when one was (truthily) supplied;
finally, if an owner was (truthily) supplied and the found record's userId
differs, return null. -/
def resolveJobToDropletId (db : List Droplet) (jobId : String)
    (userId? : Option String) : Option (Int × String) :=
  let byId : Option Droplet :=
    match jsParseInt jobId with
    | some parsed => db.find? (fun d => decide (d.dropletId = parsed))
    | none => none
  let droplet : Option Droplet :=
    match byId with
    | some d => some d
    | none => db.find? (fun d => decide (d.dropletName = jobId) && nameFilterB userId? d)
  match droplet, userId? with
  | none, _ => none
  | some d, some u => if u ≠ "" ∧ d.userId ≠ u then none else some (d.dropletId, d.userId)
  | some d, none => some (d.dropletId, d.userId)

/-- A concrete record matching the spec's resolver test. -/
def recAlpha : Droplet :=
  { dropletId := 42, dropletName := "alpha", userId := "u1",
    dropletStatus := "active", expirationTime := some 1000,
    isDeleted := false, deletedAt := none }

/-- One value of the in-memory job-logs Map (job-logs-store.ts): the
append-only line buffer and the Set of subscribed listeners.  Listener
callbacks are modelled by listener identifiers (Nat); what a callback has
been invoked with is recorded in the World's inboxes. -/
structure LogEntry where
  lines : List String
  listeners : List Nat
deriving DecidableEq

/-- The process state around the store: the Map from dropletId to its
entry (as an association list, one binding per key) and, for each listener
identifier, the sequence of lines its callback has been invoked with. -/
structure World where
  store : List (Int × LogEntry)
  inboxes : Nat → List String

/-- The store before any operation, with no listener ever invoked. -/
def emptyWorld : World :=
  { store := [], inboxes := fun _ => [] }

/-- Map.get: the entry bound to a key, if any. -/
def findEntry (es : List (Int × LogEntry)) (id : Int) : Option LogEntry :=
  (es.find? (fun p => decide (p.1 = id))).map (·.2)

/-- Map.set: rebind the key if present, otherwise append a new binding. -/
def setEntry : List (Int × LogEntry) → Int → LogEntry → List (Int × LogEntry)
  | [], id, e => [(id, e)]
  | q :: es, id, e => if q.1 = id then (id, e) :: es else q :: setEntry es id e

/-- getOrCreate: return the existing entry, or insert and return a fresh
one with no lines and no listeners. -/
def getOrCreate (es : List (Int × LogEntry)) (id : Int) :
    LogEntry × List (Int × LogEntry) :=
  match findEntry es id with
  | some e => (e, es)
  | none => (⟨[], []⟩, setEntry es id ⟨[], []⟩)

/-- appendLog: push the line onto the entry's buffer (creating the entry
if absent) and invoke every currently registered listener with the line
(modelled by extending each registered listener's inbox). -/
def appendLog (w : World) (dropletId : Int) (line : String) : World :=
  let r := getOrCreate w.store dropletId
  { store := setEntry r.2 dropletId ({ r.1 with lines := r.1.lines ++ [line] }),
    inboxes := fun l =>
      if l ∈ r.1.listeners then w.inboxes l ++ [line] else w.inboxes l }

/-- getLines: return getOrCreate(dropletId).lines — note that this, too,
creates the entry when it is absent, exactly as the source does. -/
def getLines (w : World) (dropletId : Int) : List String × World :=
  let r := getOrCreate w.store dropletId
  (r.1.lines, { w with store := r.2 })

/-- subscribe: add the listener to the entry's Set (created if absent);
Set.add is a no-op when the listener is already present. -/
def subscribeOp (w : World) (dropletId : Int) (listener : Nat) : World :=
  let r := getOrCreate w.store dropletId
  { w with
    store := setEntry r.2 dropletId
      ({ r.1 with listeners :=
          if listener ∈ r.1.listeners then r.1.listeners
          else r.1.listeners ++ [listener] }) }

/-- The closure returned by subscribe: delete exactly that listener from
that entry's Set. -/
def unsubscribeOp (w : World) (dropletId : Int) (listener : Nat) : World :=
  match findEntry w.store dropletId with
  | some e =>
    { w with
      store := setEntry w.store dropletId
        ({ e with listeners := e.listeners.erase listener }) }
  | none => w

/-- hasListeners: reads store.get without creating anything. -/
def hasListeners (w : World) (dropletId : Int) : Bool :=
  match findEntry w.store dropletId with
  | some e => decide (0 < e.listeners.length)
  | none => false

/-- The line buffer currently recorded for a job (empty when absent). -/
def linesOf (w : World) (dropletId : Int) : List String :=
  ((findEntry w.store dropletId).getD ⟨[], []⟩).lines

/-- The listener set currently recorded for a job (empty when absent). -/
def listenersOf (w : World) (dropletId : Int) : List Nat :=
  ((findEntry w.store dropletId).getD ⟨[], []⟩).listeners

/-- Run a sequence of appendLog calls, each given as (dropletId, line). -/
def runAppends (w : World) (ops : List (Int × String)) : World :=
  ops.foldl (fun w p => appendLog w p.1 p.2) w

/-- The keys present in the store. -/
def storeKeys (es : List (Int × LogEntry)) : List Int :=
  es.map (·.1)

/-- Key list after a lazy creation of the given key. -/
def addKey (ks : List Int) (id : Int) : List Int :=
  if id ∈ ks then ks else ks ++ [id]

/-- The exactly-once invariant carried through a run of appends: the
replayed prefix plus the listener's inbox equals the job's full buffer,
the listener is registered for the job, and for no other job. -/
def ReplayInv (r : List String) (j : Int) (L : Nat) (w : World) : Prop :=
  L ∈ listenersOf w j
  ∧ (∀ i, i ≠ j → L ∉ listenersOf w i)
  ∧ r ++ w.inboxes L = linesOf w j

/-- Outcome of the provider's DELETE call in the cleanup cron handler:
a 2xx response (response.ok), a 404 (already gone), or any other failure
status with its body text. -/
inductive DeleteResult where
  | ok
  | notFound
  | err (status : Nat) (text : String)
deriving DecidableEq

/-- The handler's success condition for a provider delete: it throws only
when the response is not ok AND its status is not 404, so ok and notFound
both count as success. -/
def deleteOk : DeleteResult → Bool
  | .ok => true
  | .notFound => true
  | .err _ _ => false

/-- The database query filter of the cleanup handler: findMany with
dropletStatus not equal to archive. -/
def notArchivedB (d : Droplet) : Bool :=
  !decide (d.dropletStatus = "archive")

/-- The in-process filter of the cleanup handler: skip records already
marked deleted, skip records without an expirationTime, keep records whose
expirationTime is at or before now. -/
def expiredB (now : Int) (d : Droplet) : Bool :=
  !d.isDeleted &&
    (match d.expirationTime with
     | some t => decide (t ≤ now)
     | none => false)

/-- The records one cleanup run attempts to delete: the database query
filter followed by the in-process filter. -/
def expiredSelection (db : List Droplet) (now : Int) : List Droplet :=
  (db.filter notArchivedB).filter (expiredB now)

/-- The combined selection condition. -/
def candB (now : Int) (d : Droplet) : Bool :=
  notArchivedB d && expiredB now d

/-- The soft-delete update applied on provider-delete success: isDeleted
true, deletedAt now, dropletStatus archive.  (The source takes a fresh
Date for deletedAt; in this single-instant model it coincides with now.) -/
def archiveMark (now : Int) (d : Droplet) : Droplet :=
  { d with isDeleted := true, deletedAt := some now, dropletStatus := "archive" }

/-- prisma.droplet.update on the unique dropletId key. -/
def updateById (db : List Droplet) (id : Int) (f : Droplet → Droplet) : List Droplet :=
  db.map (fun d => if d.dropletId = id then f d else d)

/-- The per-record message pushed onto the errors list on a failed
provider delete. -/
def errMsg (d : Droplet) (r : DeleteResult) : String :=
  "Error deleting droplet " ++ toString d.dropletId ++ ": " ++
    (match r with
     | .err status text =>
       "Failed to delete droplet " ++ toString d.dropletId ++ ": " ++
         toString status ++ " - " ++ text
     | _ => "")

/-- The for-loop of the cleanup handler over the selected records: on
provider-delete success (ok or 404) mark the record archived in the
database and count it; on any other failure record the error for that
record and continue with the rest. -/
def cleanLoop (provider : Int → DeleteResult) (now : Int) :
    List Droplet → List Droplet → List Droplet × Nat × List String
  | [], db => (db, 0, [])
  | d :: rest, db =>
    if deleteOk (provider d.dropletId) then
      let r := cleanLoop provider now rest (updateById db d.dropletId (archiveMark now))
      (r.1, r.2.1 + 1, r.2.2)
    else
      let r := cleanLoop provider now rest db
      (r.1, r.2.1, errMsg d (provider d.dropletId) :: r.2.2)

/-- What one cleanup run returns (plus the resulting database state):
the success count, the total number of expired records found, and the
per-record error list. -/
structure CleanupResult where
  db : List Droplet
  deleted : Nat
  total : Nat
  errors : List String
deriving DecidableEq

/-- Shallow embedding of handleCleanup: select the expired records and
process each independently. -/
def handleCleanup (provider : Int → DeleteResult) (now : Int)
    (db : List Droplet) : CleanupResult :=
  let expired := expiredSelection db now
  let r := cleanLoop provider now expired db
  { db := r.1, deleted := r.2.1, total := expired.length, errors := r.2.2 }

/-- The ids of the selected records whose provider delete succeeded. -/
def okIds (provider : Int → DeleteResult) (sel : List Droplet) : List Int :=
  (sel.filter (fun d => deleteOk (provider d.dropletId))).map (·.dropletId)

/-- A provider on which every delete succeeds. -/
def providerOkAll : Int → DeleteResult := fun _ => DeleteResult.ok

/-- C3 counterexample input: a record with dropletStatus archive but
isDeleted still false and an elapsed expirationTime. -/
def dropWeird : Droplet :=
  { dropletId := 9, dropletName := "weird", userId := "u",
    dropletStatus := "archive", expirationTime := some 0,
    isDeleted := false, deletedAt := none }

/-- C3 witness inputs: the spec's reaper test at now = 100000 ms, with
expirationTime 10 s in the past, 10 s in the future, and null. -/
def dropPast : Droplet :=
  { dropletId := 1, dropletName := "past", userId := "u",
    dropletStatus := "active", expirationTime := some 90000,
    isDeleted := false, deletedAt := none }

/-- C3 witness input with a future expirationTime. -/
def dropFuture : Droplet :=
  { dropletId := 2, dropletName := "future", userId := "u",
    dropletStatus := "active", expirationTime := some 110000,
    isDeleted := false, deletedAt := none }

/-- C3 witness input with a null expirationTime. -/
def dropNull : Droplet :=
  { dropletId := 3, dropletName := "nul", userId := "u",
    dropletStatus := "active", expirationTime := none,
    isDeleted := false, deletedAt := none }

/-- C4 witness input: an expired record whose provider delete fails. -/
def dropExpA : Droplet :=
  { dropletId := 1, dropletName := "a", userId := "u",
    dropletStatus := "active", expirationTime := some 50,
    isDeleted := false, deletedAt := none }

/-- C4 witness input: an expired record whose provider delete returns 404. -/
def dropExpB : Droplet :=
  { dropletId := 2, dropletName := "b", userId := "u",
    dropletStatus := "active", expirationTime := some 60,
    isDeleted := false, deletedAt := none }

/-- C4 witness provider: delete of id 1 fails with a 500, delete of id 2
returns 404 (already gone). -/
def providerMixed : Int → DeleteResult := fun id =>
  if id = 1 then DeleteResult.err 500 "boom" else DeleteResult.notFound

/-- The fixed extension increment: setMinutes(getMinutes() + 10), i.e.
ten minutes in epoch milliseconds. -/
def tenMinutesMs : Int := 600000

/-- Shallow embedding of the extend-expiration POST handler: 401 without
an authenticated (truthy) userId, 400 on a non-numeric id, 404 when no
record has that dropletId, 403 when the caller is not the owner, 400 when
the record is already soft-deleted, otherwise push expirationTime forward
by ten minutes from its current value (or from now when it was null). -/
def extendExpiration (auth : Option String) (idStr : String) (now : Int)
    (db : List Droplet) : Nat × List Droplet :=
  match auth with
  | none => (401, db)
  | some userId =>
    if userId = "" then (401, db)
    else
      match jsParseInt idStr with
      | none => (400, db)
      | some dropletId =>
        match db.find? (fun x => decide (x.dropletId = dropletId)) with
        | none => (404, db)
        | some droplet =>
          if droplet.userId ≠ userId then (403, db)
          else if droplet.isDeleted then (400, db)
          else
            let currentExpiration := droplet.expirationTime.getD now
            let newExpiration := currentExpiration + tenMinutesMs
            (200, updateById db dropletId
              (fun x => { x with expirationTime := some newExpiration }))

/-- C5 witness input: a live record owned by u1. -/
def dropLive : Droplet :=
  { dropletId := 5, dropletName := "live", userId := "u1",
    dropletStatus := "active", expirationTime := some 1000,
    isDeleted := false, deletedAt := none }

/-- C5 witness input: an already soft-deleted record owned by u2. -/
def dropDead : Droplet :=
  { dropletId := 6, dropletName := "dead", userId := "u2",
    dropletStatus := "archive", expirationTime := some 2000,
    isDeleted := true, deletedAt := some 500 }

/-- A JavaScript value as it can appear in the parsed request body's line
field. -/
inductive JsVal where
  | undef
  | jnull
  | jstr (s : String)
  | jnum (n : Int)
deriving DecidableEq

/-- The line the ingestion endpoint computes from the request body:
a failed body parse yields an object without a line field; a string line
is taken as is; anything else goes through String(value or-else empty). -/
def lineOfBody : Option JsVal → String
  | none => ""
  | some .undef => ""
  | some .jnull => ""
  | some (.jstr s) => s
  | some (.jnum n) => toString n

/-- Shallow embedding of the log-ingestion POST handler: 400 without a
job id; success without touching the store when the computed line is
empty; otherwise resolve the token with no ownership constraint — 404 and
no store change when resolution fails, append the line to the resolved
droplet's buffer and success when it resolves. -/
def logsPOST (db : List Droplet) (w : World) (jobId : String)
    (body : Option JsVal) : Nat × World :=
  if jobId = "" then (400, w)
  else
    let line := lineOfBody body
    if line = "" then (200, w)
    else
      match resolveJobToDropletId db jobId none with
      | none => (404, w)
      | some r => (200, appendLog w r.1 line)

/-- The replace of every single quote by quote-backslash-quote-quote, as
applied to both fields of a workload before interpolation into a
single-quoted shell literal. -/
def escQuote : List Char → List Char
  | [] => []
  | c :: rest =>
    if c = '\'' then '\'' :: '\\' :: '\'' :: '\'' :: escQuote rest
    else c :: escQuote rest

/-- The replace of every backslash by two backslashes, applied to the
command field (only) before the quote replace. -/
def escBackslash : List Char → List Char
  | [] => []
  | c :: rest =>
    if c = '\\' then '\\' :: '\\' :: escBackslash rest
    else c :: escBackslash rest

/-- generateWorkloadScript's escaping of the image field: only single
quotes are escaped. -/
def imageEsc (image : List Char) : List Char :=
  escQuote image

/-- generateWorkloadScript's escaping of the command field: backslashes
are doubled first, then single quotes are escaped. -/
def cmdEsc (command : List Char) : List Char :=
  escQuote (escBackslash command)

/-- A POSIX-shell word reader over single quotes: outside quotes a
backslash escapes the next character and a quote toggles into the quoted
region; inside quotes every character except the closing quote is literal;
an unterminated quote or a trailing backslash fails.  Returns the word's
value on success. -/
def shellParse : Bool → List Char → Option (List Char)
  | false, [] => some []
  | true, [] => none
  | false, '\\' :: [] => none
  | false, '\\' :: d :: rest2 => (shellParse false rest2).map (d :: ·)
  | false, c :: rest =>
    if c = '\'' then shellParse true rest
    else (shellParse false rest).map (c :: ·)
  | true, c :: rest =>
    if c = '\'' then shellParse false rest
    else (shellParse true rest).map (c :: ·)

/-- The generated script's embedding of an escaped field into a
single-quoted literal. -/
def singleQuoted (s : List Char) : List Char :=
  '\'' :: (s ++ ['\''])

/-- C1 counterexample input: the empty string as the supplied ownerId. -/
theorem resolver_empty_owner_counterexample :
    ("" : String) ≠ recAlpha.userId ∧
      resolveJobToDropletId [recAlpha] "42" (some "") = some (42, "u1") := by
  constructor
  · decide
  · decide

/-- C1 (amended: a supplied ownerId must be non-empty, since JavaScript
treats the empty string as falsy and then skips the ownership check):
over a store holding one record, a token parsing to its dropletId resolves
to it; its name resolves to it; any token with a supplied non-empty
ownerId different from its userId resolves to not-found; over any store, a
token matching no record's id or name resolves to not-found; and a numeric
token found by dropletId takes precedence over any name lookup. -/
theorem resolver_identity_ownership_precedence (rec : Droplet) :
    (∀ tok, jsParseInt tok = some rec.dropletId →
      resolveJobToDropletId [rec] tok none = some (rec.dropletId, rec.userId))
    ∧ (resolveJobToDropletId [rec] rec.dropletName none = some (rec.dropletId, rec.userId))
    ∧ (∀ tok u2, u2 ≠ "" → u2 ≠ rec.userId →
      resolveJobToDropletId [rec] tok (some u2) = none)
    ∧ (∀ (db : List Droplet) (tok : String) (o : Option String),
      (∀ d ∈ db, jsParseInt tok ≠ some d.dropletId ∧ tok ≠ d.dropletName) →
      resolveJobToDropletId db tok o = none)
    ∧ (∀ (db : List Droplet) (tok : String) (k : Int) (d : Droplet),
      jsParseInt tok = some k →
      db.find? (fun x => decide (x.dropletId = k)) = some d →
      resolveJobToDropletId db tok none = some (d.dropletId, d.userId)) := by
  refine ⟨?_, ?_, ?_, ?_, ?_⟩
  · intro tok h
    simp [resolveJobToDropletId, h, List.find?]
  · cases hp : jsParseInt rec.dropletName with
    | none => simp [resolveJobToDropletId, hp, List.find?, nameFilterB]
    | some k =>
      by_cases hk : rec.dropletId = k
      · simp [resolveJobToDropletId, hp, hk, List.find?]
      · simp [resolveJobToDropletId, hp, hk, List.find?, nameFilterB]
  · intro tok u2 h2 hne
    have hne' : rec.userId ≠ u2 := fun h => hne h.symm
    cases hp : jsParseInt tok with
    | none =>
      simp [resolveJobToDropletId, hp, List.find?, nameFilterB, h2, hne']
    | some k =>
      by_cases hk : rec.dropletId = k
      · simp [resolveJobToDropletId, hp, hk, List.find?, nameFilterB, h2, hne']
      · simp [resolveJobToDropletId, hp, hk, List.find?, nameFilterB, h2, hne']
  · intro db tok o h
    have hbyid : ∀ k, jsParseInt tok = some k →
        db.find? (fun d => decide (d.dropletId = k)) = none := by
      intro k hk
      rw [List.find?_eq_none]
      intro d hd
      simp only [decide_eq_true_eq]
      intro hid
      exact (h d hd).1 (by rw [hk, hid])
    have hbyname : db.find? (fun d => decide (d.dropletName = tok) && nameFilterB o d) = none := by
      rw [List.find?_eq_none]
      intro d hd
      simp only [Bool.and_eq_true, decide_eq_true_eq]
      rintro ⟨hn, -⟩
      exact (h d hd).2 hn.symm
    cases hp : jsParseInt tok with
    | none => simp [resolveJobToDropletId, hp, hbyname]
    | some k => simp [resolveJobToDropletId, hp, hbyid k hp, hbyname]
  · intro db tok k d hp hf
    simp [resolveJobToDropletId, hp, hf]

/-- C1 witness: the spec's resolver test on the record with dropletId 42,
dropletName alpha, userId u1. -/
theorem resolver_identity_ownership_precedence_witness :
    resolveJobToDropletId [recAlpha] "42" none = some (42, "u1")
    ∧ resolveJobToDropletId [recAlpha] "alpha" none = some (42, "u1")
    ∧ resolveJobToDropletId [recAlpha] "42" (some "u2") = none
    ∧ resolveJobToDropletId [recAlpha] "999" none = none
    ∧ resolveJobToDropletId [recAlpha] "42" none = some (recAlpha.dropletId, recAlpha.userId) := by
  refine ⟨?_, ?_, ?_, ?_, ?_⟩
  · exact (resolver_identity_ownership_precedence recAlpha).1 "42" (by decide)
  · exact (resolver_identity_ownership_precedence recAlpha).2.1
  · exact (resolver_identity_ownership_precedence recAlpha).2.2.1 "42" "u2"
      (by decide) (by decide)
  · exact (resolver_identity_ownership_precedence recAlpha).2.2.2.1 [recAlpha] "999" none
      (by decide)
  · exact (resolver_identity_ownership_precedence recAlpha).2.2.2.2 [recAlpha] "42" 42 recAlpha
      (by decide) (by decide)

theorem findEntry_cons (q : Int × LogEntry) (es : List (Int × LogEntry)) (id : Int) :
    findEntry (q :: es) id = if q.1 = id then some q.2 else findEntry es id := by
  by_cases h : q.1 = id <;> simp [findEntry, List.find?, h]

theorem findEntry_setEntry_self (es : List (Int × LogEntry)) (id : Int) (e : LogEntry) :
    findEntry (setEntry es id e) id = some e := by
  induction es with
  | nil => simp [setEntry, findEntry, List.find?]
  | cons q es ih =>
    by_cases h : q.1 = id
    · simp [setEntry, h, findEntry_cons]
    · simp [setEntry, h, findEntry_cons, ih]

theorem findEntry_setEntry_ne (es : List (Int × LogEntry)) (id j : Int) (e : LogEntry)
    (hj : j ≠ id) : findEntry (setEntry es id e) j = findEntry es j := by
  induction es with
  | nil =>
    have h' : ¬(id = j) := fun h => hj h.symm
    simp [setEntry, findEntry, List.find?, h']
  | cons q es ih =>
    by_cases h : q.1 = id
    · have : ¬(id = j) := fun h' => hj h'.symm
      simp [setEntry, h, findEntry_cons, this, h ▸ this]
    · simp [setEntry, h, findEntry_cons, ih]

theorem storeKeys_setEntry (es : List (Int × LogEntry)) (id : Int) (e : LogEntry) :
    storeKeys (setEntry es id e) = addKey (storeKeys es) id := by
  induction es with
  | nil => simp [setEntry, storeKeys, addKey]
  | cons q es ih =>
    by_cases h : q.1 = id
    · simp [setEntry, h, storeKeys, addKey]
    · have : ¬(id = q.1) := fun h' => h h'.symm
      simp only [setEntry, if_neg h, storeKeys, List.map_cons, addKey, List.mem_cons]
      simp only [storeKeys, addKey] at ih
      by_cases hm : id ∈ es.map (·.1)
      · simp [hm, this, ih]
      · simp [hm, this, ih]

theorem storeKeys_getOrCreate (es : List (Int × LogEntry)) (id : Int) :
    storeKeys (getOrCreate es id).2 = addKey (storeKeys es) id := by
  unfold getOrCreate
  cases hf : findEntry es id with
  | some e =>
    have hm : id ∈ storeKeys es := by
      unfold findEntry at hf
      cases hq : es.find? (fun p => decide (p.1 = id)) with
      | none => simp [hq] at hf
      | some q =>
        have hmem := List.mem_of_find?_eq_some hq
        have hpq := List.find?_some hq
        simp only [decide_eq_true_eq] at hpq
        exact hpq ▸ List.mem_map_of_mem (·.1) hmem
    simp [addKey, hm]
  | none => simp [storeKeys_setEntry]

theorem findEntry_getOrCreate_self (es : List (Int × LogEntry)) (id : Int) :
    findEntry (getOrCreate es id).2 id = some (getOrCreate es id).1 := by
  unfold getOrCreate
  cases hf : findEntry es id with
  | some e => simpa using hf
  | none => simp [findEntry_setEntry_self]

theorem findEntry_getOrCreate_ne (es : List (Int × LogEntry)) (id j : Int) (hj : j ≠ id) :
    findEntry (getOrCreate es id).2 j = findEntry es j := by
  unfold getOrCreate
  cases hf : findEntry es id with
  | some e => simp
  | none => simp [findEntry_setEntry_ne _ _ _ _ hj]

theorem getOrCreate_fst (es : List (Int × LogEntry)) (id : Int) :
    (getOrCreate es id).1 = (findEntry es id).getD ⟨[], []⟩ := by
  unfold getOrCreate
  cases hf : findEntry es id <;> simp

theorem linesOf_appendLog (w : World) (i : Int) (l : String) (j : Int) :
    linesOf (appendLog w i l) j = if j = i then linesOf w j ++ [l] else linesOf w j := by
  by_cases hj : j = i
  · subst hj
    simp [linesOf, appendLog, findEntry_setEntry_self, getOrCreate_fst]
  · simp [linesOf, appendLog, findEntry_setEntry_ne _ _ _ _ hj,
      findEntry_getOrCreate_ne _ _ _ hj, hj]

theorem listenersOf_appendLog (w : World) (i : Int) (l : String) (j : Int) :
    listenersOf (appendLog w i l) j = listenersOf w j := by
  by_cases hj : j = i
  · subst hj
    simp [listenersOf, appendLog, findEntry_setEntry_self, getOrCreate_fst]
  · simp [listenersOf, appendLog, findEntry_setEntry_ne _ _ _ _ hj,
      findEntry_getOrCreate_ne _ _ _ hj]

theorem inboxes_appendLog (w : World) (i : Int) (l : String) (L : Nat) :
    (appendLog w i l).inboxes L =
      if L ∈ listenersOf w i then w.inboxes L ++ [l] else w.inboxes L := by
  simp [appendLog, listenersOf, getOrCreate_fst]

theorem linesOf_subscribeOp (w : World) (i : Int) (L : Nat) (j : Int) :
    linesOf (subscribeOp w i L) j = linesOf w j := by
  by_cases hj : j = i
  · subst hj
    simp [linesOf, subscribeOp, findEntry_setEntry_self, getOrCreate_fst]
  · simp [linesOf, subscribeOp, findEntry_setEntry_ne _ _ _ _ hj,
      findEntry_getOrCreate_ne _ _ _ hj]

theorem listenersOf_subscribeOp_self (w : World) (i : Int) (L : Nat) :
    L ∈ listenersOf (subscribeOp w i L) i := by
  simp only [listenersOf, subscribeOp, findEntry_setEntry_self, Option.getD_some]
  by_cases hm : L ∈ (getOrCreate w.store i).1.listeners <;> simp [hm]

theorem listenersOf_subscribeOp_ne (w : World) (i : Int) (L : Nat) (j : Int) (hj : j ≠ i) :
    listenersOf (subscribeOp w i L) j = listenersOf w j := by
  simp [listenersOf, subscribeOp, findEntry_setEntry_ne _ _ _ _ hj,
    findEntry_getOrCreate_ne _ _ _ hj]

theorem inboxes_subscribeOp (w : World) (i : Int) (L : Nat) :
    (subscribeOp w i L).inboxes = w.inboxes := rfl

theorem getLines_fst (w : World) (j : Int) : (getLines w j).1 = linesOf w j := by
  simp [getLines, linesOf, getOrCreate_fst]

theorem linesOf_getLines_snd (w : World) (i j : Int) :
    linesOf (getLines w i).2 j = linesOf w j := by
  by_cases hj : j = i
  · subst hj
    simp only [linesOf, getLines, findEntry_getOrCreate_self, Option.getD_some,
      getOrCreate_fst]
  · simp [linesOf, getLines, findEntry_getOrCreate_ne _ _ _ hj]

theorem listenersOf_getLines_snd (w : World) (i j : Int) :
    listenersOf (getLines w i).2 j = listenersOf w j := by
  by_cases hj : j = i
  · subst hj
    simp only [listenersOf, getLines, findEntry_getOrCreate_self, Option.getD_some,
      getOrCreate_fst]
  · simp [listenersOf, getLines, findEntry_getOrCreate_ne _ _ _ hj]

theorem inboxes_getLines_snd (w : World) (i : Int) :
    (getLines w i).2.inboxes = w.inboxes := rfl

theorem linesOf_runAppends (ops : List (Int × String)) :
    ∀ (w : World) (j : Int), linesOf (runAppends w ops) j
      = linesOf w j ++ (ops.filter (fun p => decide (p.1 = j))).map (·.2) := by
  induction ops with
  | nil => intro w j; simp [runAppends]
  | cons p ops ih =>
    intro w j
    have hstep : runAppends w (p :: ops) = runAppends (appendLog w p.1 p.2) ops := rfl
    rw [hstep, ih, linesOf_appendLog]
    by_cases hj : p.1 = j
    · simp [hj, List.filter_cons]
    · have : ¬(j = p.1) := fun h => hj h.symm
      simp [hj, this, List.filter_cons]

theorem replayInv_appendLog (r : List String) (j : Int) (L : Nat) (w : World)
    (i : Int) (l : String) (h : ReplayInv r j L w) :
    ReplayInv r j L (appendLog w i l) := by
  obtain ⟨h1, h2, h3⟩ := h
  refine ⟨by rw [listenersOf_appendLog]; exact h1,
    fun i' hi' => by rw [listenersOf_appendLog]; exact h2 i' hi', ?_⟩
  rw [inboxes_appendLog, linesOf_appendLog]
  by_cases hij : i = j
  · subst hij
    simp [h1, ← List.append_assoc, h3]
  · have : ¬(j = i) := fun h => hij h.symm
    simp [h2 i hij, this, h3]

theorem replayInv_runAppends (ops : List (Int × String)) :
    ∀ (r : List String) (j : Int) (L : Nat) (w : World), ReplayInv r j L w →
      ReplayInv r j L (runAppends w ops) := by
  induction ops with
  | nil => intro r j L w h; exact h
  | cons p ops ih =>
    intro r j L w h
    exact ih r j L (appendLog w p.1 p.2) (replayInv_appendLog r j L w p.1 p.2 h)

/-- C2: a client that reads getLines(j) and then subscribes a fresh
listener, with no append in between (as the streaming endpoint does
synchronously), receives every line appended to j exactly once across the
replay and the subscription combined: for any subsequent appends, the
replayed lines followed by the lines delivered to the listener are exactly
the job's full buffer, which is the old buffer followed by the new appends
to j in order. -/
theorem stream_replay_then_subscribe_exactly_once (w0 : World) (j : Int) (L : Nat)
    (ops : List (Int × String))
    (hfresh : ∀ i, L ∉ listenersOf w0 i)
    (hinbox : w0.inboxes L = []) :
    (getLines w0 j).1
        ++ (runAppends (subscribeOp (getLines w0 j).2 j L) ops).inboxes L
      = linesOf (runAppends (subscribeOp (getLines w0 j).2 j L) ops) j
    ∧ linesOf (runAppends (subscribeOp (getLines w0 j).2 j L) ops) j
      = linesOf w0 j ++ (ops.filter (fun p => decide (p.1 = j))).map (·.2) := by
  set w1 := (getLines w0 j).2 with hw1
  set w2 := subscribeOp w1 j L with hw2
  have hinv : ReplayInv ((getLines w0 j).1) j L w2 := by
    refine ⟨listenersOf_subscribeOp_self w1 j L, ?_, ?_⟩
    · intro i hi
      rw [hw2, listenersOf_subscribeOp_ne _ _ _ _ hi, hw1, listenersOf_getLines_snd]
      exact hfresh i
    · rw [hw2, inboxes_subscribeOp, hw1, inboxes_getLines_snd, hinbox,
        linesOf_subscribeOp, linesOf_getLines_snd, getLines_fst]
      simp
  have hrun := replayInv_runAppends ops _ j L w2 hinv
  refine ⟨hrun.2.2, ?_⟩
  rw [linesOf_runAppends, hw2, linesOf_subscribeOp, hw1, linesOf_getLines_snd]

/-- C2 witness: replay-then-subscribe on job 7 from the empty store, with
subsequent appends to jobs 7 and 8. -/
theorem stream_replay_then_subscribe_exactly_once_witness :
    (getLines emptyWorld 7).1
        ++ (runAppends (subscribeOp (getLines emptyWorld 7).2 7 0)
            [(7, "a"), (8, "x"), (7, "b")]).inboxes 0
      = linesOf (runAppends (subscribeOp (getLines emptyWorld 7).2 7 0)
            [(7, "a"), (8, "x"), (7, "b")]) 7
    ∧ linesOf (runAppends (subscribeOp (getLines emptyWorld 7).2 7 0)
            [(7, "a"), (8, "x"), (7, "b")]) 7
      = linesOf emptyWorld 7
          ++ (([(7, "a"), (8, "x"), (7, "b")] : List (Int × String)).filter
              (fun p => decide (p.1 = 7))).map (·.2) :=
  stream_replay_then_subscribe_exactly_once emptyWorld 7 0 [(7, "a"), (8, "x"), (7, "b")]
    (fun i => by simp [listenersOf, emptyWorld, findEntry]) rfl

/-- C8: from the empty store, after any sequence of appends, getLines(j)
returns exactly the lines appended to j, in append order; and calling
getLines twice with no intervening append returns identical results. -/
theorem getLines_append_order_idempotent :
    (∀ (ops : List (Int × String)) (j : Int),
      (getLines (runAppends emptyWorld ops) j).1
        = (ops.filter (fun p => decide (p.1 = j))).map (·.2))
    ∧ (∀ (w : World) (j : Int), (getLines (getLines w j).2 j).1 = (getLines w j).1) := by
  constructor
  · intro ops j
    rw [getLines_fst, linesOf_runAppends]
    simp [linesOf, emptyWorld, findEntry]
  · intro w j
    rw [getLines_fst, getLines_fst, linesOf_getLines_snd]

/-- C9 counterexample: from the empty store, a single getLines call — with
no append and no subscribe — creates the entry for job 7. -/
theorem getLines_creates_entry_counterexample :
    storeKeys emptyWorld.store = []
    ∧ storeKeys (getLines emptyWorld 7).2.store = [7] := by
  constructor
  · rfl
  · rfl

/-- C9 (amended: getLines also creates the entry, since it is implemented
with the same getOrCreate as append and subscribe): the key set of the
store after appendLog, subscribeOp or getLines is the old key set with the
operation's job id added if absent, and unsubscribing never removes a key;
hasListeners returns a Bool without touching the store at all. -/
theorem store_entry_lifecycle (w : World) (id : Int) (line : String) (L : Nat) :
    storeKeys (appendLog w id line).store = addKey (storeKeys w.store) id
    ∧ storeKeys (subscribeOp w id L).store = addKey (storeKeys w.store) id
    ∧ storeKeys (getLines w id).2.store = addKey (storeKeys w.store) id
    ∧ storeKeys (unsubscribeOp w id L).store = storeKeys w.store := by
  have hgo : storeKeys (getOrCreate w.store id).2 = addKey (storeKeys w.store) id :=
    storeKeys_getOrCreate w.store id
  have hset : ∀ e, storeKeys (setEntry (getOrCreate w.store id).2 id e)
      = addKey (storeKeys w.store) id := by
    intro e
    rw [storeKeys_setEntry, hgo]
    unfold addKey
    by_cases hm : id ∈ storeKeys w.store
    · simp [hm]
    · simp [hm]
  refine ⟨hset _, hset _, hgo, ?_⟩
  unfold unsubscribeOp
  cases hf : findEntry w.store id with
  | some e =>
    simp only [storeKeys_setEntry]
    have hm : id ∈ storeKeys w.store := by
      unfold findEntry at hf
      cases hq : w.store.find? (fun p => decide (p.1 = id)) with
      | none => simp [hq] at hf
      | some q =>
        have hmem := List.mem_of_find?_eq_some hq
        have hpq := List.find?_some hq
        simp only [decide_eq_true_eq] at hpq
        exact hpq ▸ List.mem_map_of_mem (·.1) hmem
    simp [addKey, hm]
  | none => rfl

theorem expiredSelection_eq_filter (db : List Droplet) (now : Int) :
    expiredSelection db now = db.filter (candB now) := by
  unfold expiredSelection candB
  induction db with
  | nil => rfl
  | cons d db ih =>
    cases h1 : notArchivedB d <;> cases h2 : expiredB now d <;>
      simp [List.filter_cons, h1, h2, ih]

theorem archiveMark_dropletId (now : Int) (d : Droplet) :
    (archiveMark now d).dropletId = d.dropletId := rfl

theorem archiveMark_idem (now : Int) (d : Droplet) :
    archiveMark now (archiveMark now d) = archiveMark now d := rfl

theorem okIds_cons (provider : Int → DeleteResult) (d : Droplet) (rest : List Droplet) :
    okIds provider (d :: rest) =
      if deleteOk (provider d.dropletId) then d.dropletId :: okIds provider rest
      else okIds provider rest := by
  cases h : deleteOk (provider d.dropletId) <;> simp [okIds, List.filter_cons, h]

theorem cleanLoop_db (provider : Int → DeleteResult) (now : Int) :
    ∀ (sel db : List Droplet), (cleanLoop provider now sel db).1
      = db.map (fun x => if x.dropletId ∈ okIds provider sel then archiveMark now x else x) := by
  intro sel
  induction sel with
  | nil =>
    intro db
    simp [cleanLoop, okIds]
  | cons d rest ih =>
    intro db
    cases hok : deleteOk (provider d.dropletId) with
    | true =>
      simp only [cleanLoop, hok, if_true, ih, updateById, List.map_map, okIds_cons]
      apply List.map_congr_left
      intro x hx
      simp only [Function.comp_apply]
      by_cases hxd : x.dropletId = d.dropletId
      · by_cases hrest : x.dropletId ∈ okIds provider rest <;>
          simp [hxd, hrest, archiveMark_dropletId, archiveMark_idem]
      · by_cases hrest : x.dropletId ∈ okIds provider rest <;>
          simp [hxd, hrest]
    | false =>
      simp [cleanLoop, hok, ih, okIds_cons]

theorem cleanLoop_deleted (provider : Int → DeleteResult) (now : Int) :
    ∀ (sel db : List Droplet), (cleanLoop provider now sel db).2.1
      = (sel.filter (fun d => deleteOk (provider d.dropletId))).length := by
  intro sel
  induction sel with
  | nil => intro db; simp [cleanLoop]
  | cons d rest ih =>
    intro db
    cases hok : deleteOk (provider d.dropletId) <;>
      simp [cleanLoop, hok, ih, List.filter_cons]

theorem cleanLoop_errors (provider : Int → DeleteResult) (now : Int) :
    ∀ (sel db : List Droplet), (cleanLoop provider now sel db).2.2
      = (sel.filter (fun d => !deleteOk (provider d.dropletId))).map
          (fun d => errMsg d (provider d.dropletId)) := by
  intro sel
  induction sel with
  | nil => intro db; simp [cleanLoop]
  | cons d rest ih =>
    intro db
    cases hok : deleteOk (provider d.dropletId) <;>
      simp [cleanLoop, hok, ih, List.filter_cons]

theorem mem_okIds_iff (provider : Int → DeleteResult) (now : Int) (db : List Droplet)
    (hn : (db.map (·.dropletId)).Nodup) (x : Droplet) (hx : x ∈ db) :
    x.dropletId ∈ okIds provider (expiredSelection db now)
      ↔ (candB now x = true ∧ deleteOk (provider x.dropletId) = true) := by
  rw [expiredSelection_eq_filter]
  unfold okIds
  constructor
  · intro h
    rcases List.mem_map.1 h with ⟨y, hy, hid⟩
    rcases List.mem_filter.1 hy with ⟨hy1, hy2⟩
    rcases List.mem_filter.1 hy1 with ⟨hy3, hy4⟩
    have hxy : y = x := List.inj_on_of_nodup_map hn hy3 hx hid
    subst hxy
    exact ⟨hy4, hy2⟩
  · rintro ⟨h1, h2⟩
    exact List.mem_map.2 ⟨x, List.mem_filter.2 ⟨List.mem_filter.2 ⟨hx, h1⟩, h2⟩, rfl⟩

theorem handleCleanup_db_eq (provider : Int → DeleteResult) (now : Int) (db : List Droplet)
    (hn : (db.map (·.dropletId)).Nodup) :
    (handleCleanup provider now db).db
      = db.map (fun x =>
          if candB now x && deleteOk (provider x.dropletId) then archiveMark now x else x) := by
  unfold handleCleanup
  simp only [cleanLoop_db]
  apply List.map_congr_left
  intro x hx
  by_cases hc : x.dropletId ∈ okIds provider (expiredSelection db now)
  · obtain ⟨h1, h2⟩ := (mem_okIds_iff provider now db hn x hx).1 hc
    rw [if_pos hc, if_pos (by rw [h1, h2]; rfl)]
  · rw [if_neg hc, if_neg]
    intro hb
    rw [Bool.and_eq_true] at hb
    exact hc ((mem_okIds_iff provider now db hn x hx).2 ⟨hb.1, hb.2⟩)

theorem mem_expiredSelection (db : List Droplet) (now : Int) (d : Droplet)
    (h : d ∈ expiredSelection db now) :
    d.isDeleted = false ∧ d.dropletStatus ≠ "archive"
      ∧ ∃ t, d.expirationTime = some t ∧ t ≤ now := by
  rw [expiredSelection_eq_filter] at h
  have hc : candB now d = true := (List.mem_filter.1 h).2
  unfold candB notArchivedB expiredB at hc
  rw [Bool.and_eq_true] at hc
  obtain ⟨h1, h2⟩ := hc
  rw [Bool.and_eq_true] at h2
  obtain ⟨h3, h4⟩ := h2
  refine ⟨by simpa using h3, by simpa using h1, ?_⟩
  cases he : d.expirationTime with
  | none => rw [he] at h4; simp at h4
  | some t =>
    rw [he] at h4
    simp only [decide_eq_true_eq] at h4
    exact ⟨t, rfl, h4⟩

/-- C3 counterexample: dropWeird satisfies every condition the claim lists
for being archived (isDeleted false, expirationTime non-null and at or
before now), yet a cleanup run at now = 10 leaves it completely unchanged,
because the handler's database query already excludes every record whose
dropletStatus is archive. -/
theorem reaper_archive_status_counterexample :
    dropWeird.isDeleted = false ∧ dropWeird.expirationTime = some 0 ∧ ((0 : Int) ≤ 10)
    ∧ (handleCleanup providerOkAll 10 [dropWeird]).db = [dropWeird]
    ∧ archiveMark 10 dropWeird ≠ dropWeird := by
  decide

/-- C3 (amended: the run's selection additionally requires dropletStatus
not already archive, because the database query filters those out): when
every provider delete succeeds and dropletIds are unique, one cleanup run
archives exactly the records that pass the selection (status not archive,
isDeleted false, expirationTime non-null and at or before now) and leaves
every other record — future expirationTime or null expirationTime —
unchanged; every record the run attempts has isDeleted false, a status
other than archive and an elapsed expirationTime; and in the resulting
database any immediately following run attempts only records with
isDeleted false, hence never an already-archived record. -/
theorem reaper_archives_exactly_expired (provider : Int → DeleteResult) (now : Int)
    (db : List Droplet)
    (hprov : ∀ id, deleteOk (provider id) = true)
    (hn : (db.map (·.dropletId)).Nodup) :
    (handleCleanup provider now db).db
      = db.map (fun x => if candB now x then archiveMark now x else x)
    ∧ (∀ d ∈ expiredSelection db now,
        d.isDeleted = false ∧ d.dropletStatus ≠ "archive"
          ∧ ∃ t, d.expirationTime = some t ∧ t ≤ now)
    ∧ (∀ (now2 : Int) (d : Droplet),
        d ∈ expiredSelection (handleCleanup provider now db).db now2 →
          d.isDeleted = false) := by
  refine ⟨?_, ?_, ?_⟩
  · rw [handleCleanup_db_eq provider now db hn]
    apply List.map_congr_left
    intro x _
    rw [hprov x.dropletId, Bool.and_true]
  · intro d hd
    exact mem_expiredSelection db now d hd
  · intro now2 d hd
    exact (mem_expiredSelection _ now2 d hd).1

/-- C3 witness: the run at now = 100000 archives exactly dropPast, leaves
dropFuture and dropNull unchanged, and an immediate second run selects
nothing at all. -/
theorem reaper_archives_exactly_expired_witness :
    (handleCleanup providerOkAll 100000 [dropPast, dropFuture, dropNull]).db
      = [archiveMark 100000 dropPast, dropFuture, dropNull]
    ∧ expiredSelection
        (handleCleanup providerOkAll 100000 [dropPast, dropFuture, dropNull]).db 100000
      = [] := by
  obtain ⟨h1, -, -⟩ := reaper_archives_exactly_expired providerOkAll 100000
    [dropPast, dropFuture, dropNull] (fun _ => rfl) (by decide)
  constructor
  · rw [h1]; decide
  · rw [h1]; decide

/-- C4: with unique dropletIds, each selected record is processed
independently: the resulting database archives exactly the selected
records whose provider delete succeeded — and a 404 (not-found) counts as
success, so such records are still marked isDeleted, deletedAt now,
status archive — while every selected record whose delete failed is left
unmarked; the errors list holds exactly one message per failed record and
the success count counts exactly the succeeded ones, so one record's
failure never aborts the batch. -/
theorem reaper_partial_failure_handling (provider : Int → DeleteResult) (now : Int)
    (db : List Droplet) (hn : (db.map (·.dropletId)).Nodup) :
    (handleCleanup provider now db).db
      = db.map (fun x =>
          if candB now x && deleteOk (provider x.dropletId) then archiveMark now x else x)
    ∧ (handleCleanup provider now db).errors
      = ((expiredSelection db now).filter (fun d => !deleteOk (provider d.dropletId))).map
          (fun d => errMsg d (provider d.dropletId))
    ∧ (handleCleanup provider now db).deleted
      = ((expiredSelection db now).filter (fun d => deleteOk (provider d.dropletId))).length
    ∧ deleteOk DeleteResult.notFound = true := by
  refine ⟨handleCleanup_db_eq provider now db hn, ?_, ?_, rfl⟩
  · unfold handleCleanup
    simp only [cleanLoop_errors]
  · unfold handleCleanup
    simp only [cleanLoop_deleted]

/-- C4 witness: over [dropExpA, dropExpB] with providerMixed, the run
leaves dropExpA unmarked, archives dropExpB (its 404 counted as success),
records exactly one error (for dropExpA) and counts one success. -/
theorem reaper_partial_failure_handling_witness :
    (handleCleanup providerMixed 100 [dropExpA, dropExpB]).db
      = [dropExpA, archiveMark 100 dropExpB]
    ∧ (handleCleanup providerMixed 100 [dropExpA, dropExpB]).errors
      = [errMsg dropExpA (DeleteResult.err 500 "boom")]
    ∧ (handleCleanup providerMixed 100 [dropExpA, dropExpB]).deleted = 1 := by
  obtain ⟨h1, h2, h3, -⟩ := reaper_partial_failure_handling providerMixed 100
    [dropExpA, dropExpB] (by decide)
  refine ⟨?_, ?_, ?_⟩
  · rw [h1]; decide
  · rw [h2]; decide
  · rw [h3]; decide

theorem find_by_unique_id (db : List Droplet) (d : Droplet)
    (hn : (db.map (·.dropletId)).Nodup) (hd : d ∈ db) :
    db.find? (fun x => decide (x.dropletId = d.dropletId)) = some d := by
  induction db with
  | nil => cases hd
  | cons x db ih =>
    rw [List.map_cons, List.nodup_cons] at hn
    rcases List.mem_cons.1 hd with rfl | hmem
    · simp [List.find?]
    · by_cases hx : x.dropletId = d.dropletId
      · have : x.dropletId ∈ db.map (·.dropletId) :=
          hx.symm ▸ List.mem_map_of_mem (·.dropletId) hmem
        exact absurd this hn.1
      · simp only [List.find?, decide_eq_false hx]
        exact ih hn.2 hmem

/-- C5: for a record in a database with unique dropletIds, addressed by
its owner through a token parsing to its dropletId: while isDeleted is
false and expirationTime is some T, the handler responds 200 and sets that
record's expirationTime to T plus exactly ten minutes, leaving every other
record untouched; when isDeleted is true it responds 400 and leaves the
whole database, in particular the record's expirationTime, unchanged. -/
theorem extend_expiration_ten_minutes (db : List Droplet) (d : Droplet) (idStr : String)
    (now T : Int)
    (hn : (db.map (·.dropletId)).Nodup) (hd : d ∈ db)
    (hp : jsParseInt idStr = some d.dropletId) (hu : d.userId ≠ "") :
    (d.isDeleted = false → d.expirationTime = some T →
      extendExpiration (some d.userId) idStr now db
        = (200, db.map (fun x => if x.dropletId = d.dropletId
            then { x with expirationTime := some (T + tenMinutesMs) } else x)))
    ∧ (d.isDeleted = true →
      extendExpiration (some d.userId) idStr now db = (400, db)) := by
  have hf := find_by_unique_id db d hn hd
  constructor
  · intro hdel hexp
    simp [extendExpiration, hu, hp, hf, hdel, hexp, updateById]
  · intro hdel
    simp [extendExpiration, hu, hp, hf, hdel]

/-- C5 witness: extending the live record moves its expirationTime from
1000 to 1000 + 600000; extending the deleted record responds 400 and
changes nothing. -/
theorem extend_expiration_ten_minutes_witness :
    extendExpiration (some dropLive.userId) "5" 0 [dropLive, dropDead]
      = (200, [{ dropLive with expirationTime := some (1000 + tenMinutesMs) }, dropDead])
    ∧ extendExpiration (some dropDead.userId) "6" 0 [dropLive, dropDead]
      = (400, [dropLive, dropDead]) := by
  constructor
  · have h := (extend_expiration_ten_minutes [dropLive, dropDead] dropLive "5" 0 1000
      (by decide) (by decide) (by decide) (by decide)).1 rfl rfl
    rw [h]; decide
  · exact (extend_expiration_ten_minutes [dropLive, dropDead] dropDead "6" 0 0
      (by decide) (by decide) (by decide) (by decide)).2 rfl

/-- C6: for any request with a non-empty job token: an unparseable body is
treated as an empty line; an empty line yields success with the store
untouched; a non-empty line whose token does not resolve yields 404 with
the store untouched; a non-empty line whose token resolves appends exactly
that line to the resolved droplet's buffer and yields success. -/
theorem logs_post_error_handling (db : List Droplet) (w : World) (jobId : String)
    (body : Option JsVal) (hj : jobId ≠ "") :
    lineOfBody none = ""
    ∧ (lineOfBody body = "" → logsPOST db w jobId body = (200, w))
    ∧ (lineOfBody body ≠ "" → resolveJobToDropletId db jobId none = none →
        logsPOST db w jobId body = (404, w))
    ∧ (∀ did u, lineOfBody body ≠ "" →
        resolveJobToDropletId db jobId none = some (did, u) →
        logsPOST db w jobId body = (200, appendLog w did (lineOfBody body))) := by
  refine ⟨rfl, ?_, ?_, ?_⟩
  · intro hl
    simp [logsPOST, hj, hl]
  · intro hl hr
    simp [logsPOST, hj, hl, hr]
  · intro did u hl hr
    simp [logsPOST, hj, hl, hr]

/-- C6 witness: over the store containing recAlpha, the three interesting
requests to job token 42 (resp. the unknown token 999). -/
theorem logs_post_error_handling_witness :
    logsPOST [recAlpha] emptyWorld "42" (some (JsVal.jstr "hello"))
      = (200, appendLog emptyWorld 42 "hello")
    ∧ logsPOST [recAlpha] emptyWorld "999" (some (JsVal.jstr "hello")) = (404, emptyWorld)
    ∧ logsPOST [recAlpha] emptyWorld "42" none = (200, emptyWorld) := by
  refine ⟨?_, ?_, ?_⟩
  · exact (logs_post_error_handling [recAlpha] emptyWorld "42"
      (some (JsVal.jstr "hello")) (by decide)).2.2.2 42 "u1" (by decide) (by decide)
  · exact (logs_post_error_handling [recAlpha] emptyWorld "999"
      (some (JsVal.jstr "hello")) (by decide)).2.2.1 (by decide) (by decide)
  · exact (logs_post_error_handling [recAlpha] emptyWorld "42" none (by decide)).2.1 rfl

/-- C10: whenever the computed line is empty — unparseable body, missing
line field, or an empty string — the endpoint succeeds before attempting
resolution: even with a job token that resolves to no instance it responds
success, and the log store is left unchanged. -/
theorem logs_post_empty_line_before_resolution (db : List Droplet) (w : World)
    (jobId : String) (hj : jobId ≠ "")
    (_hr : resolveJobToDropletId db jobId none = none) :
    logsPOST db w jobId none = (200, w)
    ∧ logsPOST db w jobId (some JsVal.undef) = (200, w)
    ∧ logsPOST db w jobId (some (JsVal.jstr "")) = (200, w) := by
  refine ⟨?_, ?_, ?_⟩ <;> simp [logsPOST, hj, lineOfBody]

/-- C10 witness: token 7 over the empty database resolves to nothing, yet
all three empty-line request shapes succeed without touching the store. -/
theorem logs_post_empty_line_before_resolution_witness :
    logsPOST [] emptyWorld "7" none = (200, emptyWorld)
    ∧ logsPOST [] emptyWorld "7" (some JsVal.undef) = (200, emptyWorld)
    ∧ logsPOST [] emptyWorld "7" (some (JsVal.jstr "")) = (200, emptyWorld) :=
  logs_post_empty_line_before_resolution [] emptyWorld "7" (by decide) (by decide)

theorem shellParse_escQuote (s : List Char) :
    ∀ k, shellParse true (escQuote s ++ k) = (shellParse true k).map (s ++ ·) := by
  induction s with
  | nil =>
    intro k
    simp only [escQuote, List.nil_append]
    cases shellParse true k <;> simp
  | cons c t ih =>
    intro k
    by_cases hc : c = '\''
    · subst hc
      have e1 : escQuote ('\'' :: t) ++ k
          = '\'' :: '\\' :: '\'' :: '\'' :: (escQuote t ++ k) := by
        simp [escQuote]
      rw [e1]
      rw [show shellParse true ('\'' :: '\\' :: '\'' :: '\'' :: (escQuote t ++ k))
          = shellParse false ('\\' :: '\'' :: '\'' :: (escQuote t ++ k)) from rfl]
      rw [show shellParse false ('\\' :: '\'' :: '\'' :: (escQuote t ++ k))
          = (shellParse false ('\'' :: (escQuote t ++ k))).map ('\'' :: ·) from rfl]
      rw [show shellParse false ('\'' :: (escQuote t ++ k))
          = shellParse true (escQuote t ++ k) from rfl]
      rw [ih k]
      cases shellParse true k <;> simp
    · simp only [escQuote, if_neg hc, List.cons_append]
      simp only [shellParse, if_neg hc, ih k]
      cases shellParse true k <;> simp

/-- C7 counterexample: the image field's escaping leaves a backslash
completely unescaped (it is the identity on a backslash), while the
command field's escaping doubles it — so the claim that both
metacharacters are escaped in both fields is false for the image field. -/
theorem image_backslash_unescaped_counterexample :
    imageEsc ['a', '\\', 'b'] = ['a', '\\', 'b']
    ∧ cmdEsc ['a', '\\', 'b'] = ['a', '\\', '\\', 'b'] := by
  constructor <;> rfl

/-- C7 (amended: the generator escapes the single quote in both fields but
the backslash only in the command field — inside single quotes a backslash
needs no escaping): for every image and command, the single-quoted
literals the script interpolates are valid shell words with no unescaped
quote terminating them early: the quoted escaped image parses back to
exactly the image, and the quoted escaped command parses back to the
command with its backslashes doubled — in particular for the spec's
image a-quote-b and command c-backslash-d. -/
theorem script_escaping_single_quote_safe (image command : List Char) :
    shellParse false (singleQuoted (imageEsc image)) = some image
    ∧ shellParse false (singleQuoted (cmdEsc command)) = some (escBackslash command) := by
  constructor
  · show shellParse false ('\'' :: (escQuote image ++ ['\''])) = some image
    rw [show shellParse false ('\'' :: (escQuote image ++ ['\'']))
        = shellParse true (escQuote image ++ ['\'']) from rfl]
    rw [shellParse_escQuote image ['\'']]
    rw [show shellParse true ['\''] = some [] from rfl]
    simp
  · show shellParse false ('\'' :: (escQuote (escBackslash command) ++ ['\'']))
      = some (escBackslash command)
    rw [show shellParse false ('\'' :: (escQuote (escBackslash command) ++ ['\'']))
        = shellParse true (escQuote (escBackslash command) ++ ['\'']) from rfl]
    rw [shellParse_escQuote (escBackslash command) ['\'']]
    rw [show shellParse true ['\''] = some [] from rfl]
    simp

end Superlamp
